import Mathlib

/-!
# Verification of `versionCheck.py`

Shallow embedding of `src/build/devices/esp32/xsProj-esp32/versionCheck.py`,
a build-gate script that compares an expected and a given ESP-IDF version
string and exits with a status code.

The Python list built from `given.split(".")` holds strings, and the padding
appended by `g.append(0)` is the *integer* `0`; Python `==` between a string
and an integer is `False` (no exception).  We model list elements with the
type `Tok` below.  A Python `IndexError` (the script indexes `g[2]`/`e[2]`
without a bounds guard) is modelled by the program returning `none`.
-/

/-- An element of the Python lists `g` and `e`: either a string token from
`split(".")`, or the integer `0` appended as padding. -/
inductive Tok where
  | s (v : String)
  | z
deriving DecidableEq, Repr

/-- Auxiliary for `splitDot`: walks the characters, accumulating the current
token (in reverse) and emitting it at each `'.'` and at the end. -/
def splitDotAux : List Char → List Char → List String
  | [], acc => [String.mk acc.reverse]
  | c :: cs, acc =>
    if c = '.' then String.mk acc.reverse :: splitDotAux cs []
    else splitDotAux cs (c :: acc)

/-- Python `s.split(".")`: splits on every `'.'`, keeping empty tokens;
`"".split(".") == [""]`. -/
def splitDot (s : String) : List String :=
  splitDotAux s.data []

/-- The padding step of the script: `if len(l) < 3: l.append(0)`.
Note it appends a single element, and that element is the integer `0`. -/
def pad (l : List Tok) : List Tok :=
  if l.length < 3 then l ++ [Tok.z] else l

/-- The list the script builds from one argument: split on `"."`, then pad. -/
def versionOf (s : String) : List Tok :=
  pad ((splitDot s).map Tok.s)

/-- The fixed update-instructions line printed by the script (the misspelling
"instrucitons" is in the source). -/
def update : String :=
  "  See update instrucitons at: https://github.com/Moddable-OpenSource/moddable/blob/public/documentation/devices/esp32.md"

/-- Observable outcome of a terminating run: the lines printed to standard
output, in order, and the process exit code. -/
structure Result where
  out : List String
  code : Nat
deriving DecidableEq, Repr

/-- The whole script as a function of `sys.argv` (`argv.head? ` is the program
name).  `none` models an uncaught Python exception (`IndexError` from `g[2]`
or `e[2]`). -/
def run (argv : List String) : Option Result :=
  if argv.length < 3 then some ⟨["Not enough parameters"], 1⟩
  else
    let expected := argv.getD 1 ""
    let given := argv.getD 2 ""
    let g := versionOf given
    let e := versionOf expected
    do
      let g0 ← g.get? 0
      let e0 ← e.get? 0
      if g0 = e0 then
        let g1 ← g.get? 1
        let e1 ← e.get? 1
        if g1 = e1 then
          let g2 ← g.get? 2
          let e2 ← e.get? 2
          if g2 = e2 then
            pure ⟨[], 0⟩
          else
            pure ⟨if g2 ≠ e2 then
                    ["Recommend using ESP-IDF " ++ expected ++ " (found " ++ given ++ ")", update]
                  else [], 0⟩
        else
          pure ⟨["*** Update required to ESP-IDF " ++ expected, update], 1⟩
      else
        pure ⟨["*** Update required to ESP-IDF " ++ expected, update], 1⟩

/-! ## Basic structural lemmas -/

lemma splitDotAux_ne_nil (l acc : List Char) : splitDotAux l acc ≠ [] := by
  induction l generalizing acc with
  | nil => simp [splitDotAux]
  | cons c cs ih =>
    simp only [splitDotAux]
    split
    · simp
    · exact ih _

lemma one_le_length_splitDot (s : String) : 1 ≤ (splitDot s).length :=
  List.length_pos.mpr (splitDotAux_ne_nil _ _)

lemma two_le_length_versionOf (s : String) : 2 ≤ (versionOf s).length := by
  have h1 := one_le_length_splitDot s
  unfold versionOf pad
  split
  · simp only [List.length_append, List.length_map, List.length_cons, List.length_nil]
    omega
  · rename_i hnot
    simp only [List.length_map, Nat.not_lt] at hnot ⊢
    omega

lemma exists_cons2 {l : List Tok} (h : 2 ≤ l.length) :
    ∃ a b rest, l = a :: b :: rest := by
  rcases l with _ | ⟨a, l⟩
  · simp at h
  rcases l with _ | ⟨b, rest⟩
  · simp at h
  exact ⟨a, b, rest, rfl⟩

lemma exists_cons3 {l : List Tok} (h : 3 ≤ l.length) :
    ∃ a b c rest, l = a :: b :: c :: rest := by
  rcases l with _ | ⟨a, l⟩
  · simp at h
  rcases l with _ | ⟨b, l⟩
  · simp at h
  rcases l with _ | ⟨c, rest⟩
  · simp at h
  exact ⟨a, b, c, rest, rfl⟩

lemma three_le_length_versionOf {s : String} (h : 2 ≤ (splitDot s).length) :
    3 ≤ (versionOf s).length := by
  unfold versionOf pad
  split
  · simp only [List.length_append, List.length_map, List.length_cons, List.length_nil]
    omega
  · rename_i hnot
    simp only [List.length_map, Nat.not_lt] at hnot
    simpa using hnot

/-! ## Claim theorems -/

/-- Claim C3 (confirmed): with fewer than 2 positional arguments (i.e.
`len(sys.argv) < 3`), the script prints exactly `"Not enough parameters"`
and exits with code 1, performing no version comparison. -/
theorem run_not_enough_parameters (argv : List String) (h : argv.length < 3) :
    run argv = some ⟨["Not enough parameters"], 1⟩ := by
  unfold run
  rw [if_pos h]

/-- Witness for `run_not_enough_parameters` at the concrete one-argument
invocation. -/
theorem run_not_enough_parameters_witness :
    ([ "versionCheck.py" ] : List String).length < 3 ∧
      run ["versionCheck.py"] = some ⟨["Not enough parameters"], 1⟩ :=
  ⟨by decide, run_not_enough_parameters ["versionCheck.py"] (by decide)⟩

/-- Claim C7 (confirmed): `expected="4.4"`, `given="4.4"` (both missing the
patch token, padded) exits with code 0 and prints nothing. -/
theorem run_four_four_equal_after_padding :
    run ["versionCheck.py", "4.4", "4.4"] = some ⟨[], 0⟩ := by decide

/-- Claim C8 (confirmed): the program is deterministic — two runs with the
same argument vector produce the same printed lines and the same exit code
(in this embedding the program is the pure function `run` of `argv`, so the
result depends on nothing but the arguments). -/
theorem run_deterministic (argv₁ argv₂ : List String) (h : argv₁ = argv₂) :
    run argv₁ = run argv₂ := by rw [h]

/-- Witness for `run_deterministic` at a concrete argument vector. -/
theorem run_deterministic_witness :
    run ["versionCheck.py", "4.4.2", "4.4.2"] = run ["versionCheck.py", "4.4.2", "4.4.2"] :=
  run_deterministic _ _ rfl

/-- Claim C1, counterexample: for the identical argument strings `"4"` and
`"4"` (no `.`), splitting yields one token, padding appends only one element,
and the access `g[2]` raises `IndexError` — the run does not exit 0 with no
output. -/
theorem run_identical_no_dot_counterexample :
    run ["versionCheck.py", "4", "4"] = none ∧
      run ["versionCheck.py", "4", "4"] ≠ some ⟨[], 0⟩ := by decide

/-- Claim C1 (amended): for every pair of identical argument strings that
split into at least 2 tokens on `.` (i.e. contain at least one `.`), the
program exits with code 0 and prints nothing. -/
theorem run_identical_args_ok (p s : String) (h : 2 ≤ (splitDot s).length) :
    run [p, s, s] = some ⟨[], 0⟩ := by
  obtain ⟨a, b, c, rest, hl⟩ := exists_cons3 (three_le_length_versionOf h)
  simp [run, hl]

/-- Witness for `run_identical_args_ok` at `"4.4.2"`. -/
theorem run_identical_args_ok_witness :
    2 ≤ (splitDot "4.4.2").length ∧
      run ["versionCheck.py", "4.4.2", "4.4.2"] = some ⟨[], 0⟩ :=
  ⟨by decide, run_identical_args_ok "versionCheck.py" "4.4.2" (by decide)⟩

/-- Claim C2, counterexample: the input `"4"` yields one token, and the
constructed list has 2 components, not 3. -/
theorem versionOf_single_token_counterexample :
    (versionOf "4").length = 2 ∧ (versionOf "4").length ≠ 3 := by decide

/-- Claim C2 (amended): padding appends exactly one element when there are
fewer than 3 tokens, so a 2-token string becomes exactly 3 components, a
1-token string becomes only 2 components, and a string with 3 or more tokens
is left unchanged. -/
theorem length_versionOf (s : String) :
    (versionOf s).length =
      if (splitDot s).length < 3 then (splitDot s).length + 1
      else (splitDot s).length := by
  simp only [versionOf, pad, List.length_map]
  split <;> simp

/-- Claim C4 (confirmed): when the major components (index 0 after padding)
differ, or the majors are equal and the minor components (index 1) differ,
the program prints the update-required message and the fixed URL line and
exits with code 1. -/
theorem run_blocking_mismatch (p expected given : String)
    (h : (versionOf given).getD 0 Tok.z ≠ (versionOf expected).getD 0 Tok.z ∨
         ((versionOf given).getD 0 Tok.z = (versionOf expected).getD 0 Tok.z ∧
          (versionOf given).getD 1 Tok.z ≠ (versionOf expected).getD 1 Tok.z)) :
    run [p, expected, given] =
      some ⟨["*** Update required to ESP-IDF " ++ expected, update], 1⟩ := by
  obtain ⟨a, b, gr, hg⟩ := exists_cons2 (two_le_length_versionOf given)
  obtain ⟨c, d, er, he⟩ := exists_cons2 (two_le_length_versionOf expected)
  rw [hg, he] at h
  simp only [List.getD_cons_zero, List.getD_cons_succ] at h
  rcases h with h | ⟨h0, h1⟩
  · simp [run, hg, he, h]
  · subst h0
    simp [run, hg, he, h1]

/-- Witness for `run_blocking_mismatch`: minor components differ at
`expected="4.4.2"`, `given="4.3.2"`. -/
theorem run_blocking_mismatch_witness :
    run ["versionCheck.py", "4.4.2", "4.3.2"] =
      some ⟨["*** Update required to ESP-IDF " ++ "4.4.2", update], 1⟩ :=
  run_blocking_mismatch "versionCheck.py" "4.4.2" "4.3.2" (Or.inr ⟨by decide, by decide⟩)

/-- Claim C5 (confirmed): when the major and minor components are equal and
the patch components (index 2, which both exist) differ, the program prints
the advisory recommendation and the URL line and exits with code 0. -/
theorem run_advisory_mismatch (p expected given : String)
    (h0 : (versionOf given).getD 0 Tok.z = (versionOf expected).getD 0 Tok.z)
    (h1 : (versionOf given).getD 1 Tok.z = (versionOf expected).getD 1 Tok.z)
    (gc ec : Tok)
    (hg2 : (versionOf given).get? 2 = some gc)
    (he2 : (versionOf expected).get? 2 = some ec)
    (h2 : gc ≠ ec) :
    run [p, expected, given] =
      some ⟨["Recommend using ESP-IDF " ++ expected ++ " (found " ++ given ++ ")", update],
            0⟩ := by
  have hg3 : 3 ≤ (versionOf given).length := by
    rcases List.get?_eq_some.mp hg2 with ⟨hlt, _⟩
    omega
  have he3 : 3 ≤ (versionOf expected).length := by
    rcases List.get?_eq_some.mp he2 with ⟨hlt, _⟩
    omega
  obtain ⟨a, b, c, gr, hg⟩ := exists_cons3 hg3
  obtain ⟨d, e, f, er, he⟩ := exists_cons3 he3
  rw [hg] at h0 h1 hg2
  rw [he] at h0 h1 he2
  simp only [List.getD_cons_zero, List.getD_cons_succ, List.get?_cons_succ,
    List.get?_cons_zero, Option.some.injEq] at h0 h1 hg2 he2
  subst h0 h1 hg2 he2
  simp [run, hg, he, h2]

/-- Witness for `run_advisory_mismatch` at `expected="4.4.2"`,
`given="4.4.5"`. -/
theorem run_advisory_mismatch_witness :
    run ["versionCheck.py", "4.4.2", "4.4.5"] =
      some ⟨["Recommend using ESP-IDF " ++ "4.4.2" ++ " (found " ++ "4.4.5" ++ ")", update],
            0⟩ :=
  run_advisory_mismatch "versionCheck.py" "4.4.2" "4.4.5" (by decide) (by decide)
    (Tok.s "5") (Tok.s "2") (by decide) (by decide) (by decide)

/-- Claim C6, counterexample: two invocations agreeing on the first three
tokens of each version do not produce identical output, because the printed
messages embed the full original strings. -/
theorem run_extra_tokens_output_counterexample :
    (splitDot "4.4.2.7").take 3 = (splitDot "4.4.2.8").take 3 ∧
      run ["versionCheck.py", "4.4.2.7", "4.4.3"] ≠
        run ["versionCheck.py", "4.4.2.8", "4.4.3"] := by decide

lemma versionOf_take3_congr {a b : String}
    (h : (splitDot a).take 3 = (splitDot b).take 3) :
    (versionOf a).take 3 = (versionOf b).take 3 := by
  have hlen : (splitDot a).length < 3 ↔ (splitDot b).length < 3 := by
    have := congrArg List.length h
    simp only [List.length_take] at this
    omega
  by_cases ha : (splitDot a).length < 3
  · have hb : (splitDot b).length < 3 := hlen.mp ha
    have hfull : splitDot a = splitDot b := by
      rw [← List.take_of_length_le (Nat.le_of_lt ha), ← List.take_of_length_le (Nat.le_of_lt hb)]
      exact h
    simp [versionOf, hfull]
  · have hb : ¬ (splitDot b).length < 3 := fun hb => ha (hlen.mpr hb)
    have hpa : versionOf a = (splitDot a).map Tok.s := by
      simp only [versionOf, pad, List.length_map]
      rw [if_neg ha]
    have hpb : versionOf b = (splitDot b).map Tok.s := by
      simp only [versionOf, pad, List.length_map]
      rw [if_neg hb]
    rw [hpa, hpb, ← List.map_take, ← List.map_take, h]

lemma getElem?_of_take3_eq {l m : List Tok} (h : l.take 3 = m.take 3)
    {i : Nat} (hi : i < 3) : l[i]? = m[i]? := by
  rw [← List.getElem?_take_of_lt hi, h, List.getElem?_take_of_lt hi]

lemma run_map_code_congr (p expected given expected' given' : String)
    (h0 : (versionOf given)[0]? = (versionOf given')[0]?)
    (h1 : (versionOf given)[1]? = (versionOf given')[1]?)
    (h2 : (versionOf given)[2]? = (versionOf given')[2]?)
    (k0 : (versionOf expected)[0]? = (versionOf expected')[0]?)
    (k1 : (versionOf expected)[1]? = (versionOf expected')[1]?)
    (k2 : (versionOf expected)[2]? = (versionOf expected')[2]?) :
    Option.map Result.code (run [p, expected, given]) =
      Option.map Result.code (run [p, expected', given']) := by
  simp only [run, List.length_cons, List.length_nil]
  norm_num
  rw [← h0, ← h1, ← h2, ← k0, ← k1, ← k2]
  generalize (versionOf given)[0]? = g0
  generalize (versionOf expected)[0]? = e0
  generalize (versionOf given)[1]? = g1
  generalize (versionOf expected)[1]? = e1
  generalize (versionOf given)[2]? = g2
  generalize (versionOf expected)[2]? = e2
  rcases g0 with _ | a <;> rcases e0 with _ | d <;> simp
  by_cases had : a = d <;> simp [had]
  rcases g1 with _ | b <;> rcases e1 with _ | e <;> simp
  by_cases hbe : b = e <;> simp [hbe]
  rcases g2 with _ | c <;> rcases e2 with _ | f <;> simp
  by_cases hcf : c = f <;> simp [hcf]

/-- Claim C6 (amended): tokens beyond the 3rd have no effect on the exit code
or on termination — two invocations whose arguments agree on the first three
tokens of each version produce the same exit code (and raise an exception in
the same cases), with no truncation error for longer inputs; the printed
text, however, embeds the full original strings, so outputs can differ. -/
theorem run_code_ignores_extra_tokens (p expected given expected' given' : String)
    (he : (splitDot expected).take 3 = (splitDot expected').take 3)
    (hg : (splitDot given).take 3 = (splitDot given').take 3) :
    Option.map Result.code (run [p, expected, given]) =
      Option.map Result.code (run [p, expected', given']) := by
  have he3 := versionOf_take3_congr he
  have hg3 := versionOf_take3_congr hg
  exact run_map_code_congr p expected given expected' given'
    (getElem?_of_take3_eq hg3 (by omega)) (getElem?_of_take3_eq hg3 (by omega))
    (getElem?_of_take3_eq hg3 (by omega)) (getElem?_of_take3_eq he3 (by omega))
    (getElem?_of_take3_eq he3 (by omega)) (getElem?_of_take3_eq he3 (by omega))

/-- Witness for `run_code_ignores_extra_tokens`: a 4th token on `expected`
does not change the exit code. -/
theorem run_code_ignores_extra_tokens_witness :
    ((splitDot "4.4.2.7").take 3 = (splitDot "4.4.2.8").take 3 ∧
      (splitDot "4.3.0").take 3 = (splitDot "4.3.0").take 3) ∧
      Option.map Result.code (run ["versionCheck.py", "4.4.2.7", "4.3.0"]) =
        Option.map Result.code (run ["versionCheck.py", "4.4.2.8", "4.3.0"]) :=
  ⟨⟨by decide, by decide⟩,
   run_code_ignores_extra_tokens "versionCheck.py" "4.4.2.7" "4.3.0" "4.4.2.8" "4.3.0"
     (by decide) (by decide)⟩

lemma versionOf_get?_one_eq_z {s : String} (h : (versionOf s).get? 1 = some Tok.z) :
    (splitDot s).length = 1 := by
  rcases hs : splitDot s with _ | ⟨t0, _ | ⟨t1, rest⟩⟩
  · exact absurd hs (splitDotAux_ne_nil _ _)
  · rfl
  · rw [versionOf, hs] at h
    unfold pad at h
    split at h <;> simp at h

/-- Claim C9 (confirmed): (a) when both argument strings split into at least
2 tokens, every list access is in range and no exception is raised (the run
returns a result); (b) when an argument splits into fewer than 2 tokens and
the compared major components and padded minor components are equal, the
access at index 2 is out of range (the run raises `IndexError`, modelled as
`none`). -/
theorem run_index_safety (p expected given : String) :
    (2 ≤ (splitDot expected).length → 2 ≤ (splitDot given).length →
      (run [p, expected, given]).isSome)
    ∧ (((splitDot given).length < 2 ∨ (splitDot expected).length < 2) →
      (versionOf given).getD 0 Tok.z = (versionOf expected).getD 0 Tok.z →
      (versionOf given).getD 1 Tok.z = (versionOf expected).getD 1 Tok.z →
      run [p, expected, given] = none) := by
  constructor
  · intro he hg
    obtain ⟨a, b, c, gr, hgl⟩ := exists_cons3 (three_le_length_versionOf hg)
    obtain ⟨d, e, f, er, hel⟩ := exists_cons3 (three_le_length_versionOf he)
    simp only [run, List.length_cons, List.length_nil]
    norm_num
    rw [hgl, hel]
    simp only [List.getElem?_cons_zero, List.getElem?_cons_succ]
    simp only [Option.bind_eq_bind, Option.some_bind]
    split
    · split
      · split <;> simp
      · simp
    · simp
  · intro hshort h0 h1
    -- in every satisfiable case `given` splits into a single token
    have hg1 : (splitDot given).length = 1 := by
      rcases hshort with hg | he
      · have := one_le_length_splitDot given
        omega
      · -- expected is short: its padded minor is `Tok.z`; equality forces
        -- the padded minor of `given` to be `Tok.z` too
        have he1 : (splitDot expected).length = 1 := by
          have := one_le_length_splitDot expected
          omega
        rcases hs : splitDot expected with _ | ⟨t, rest⟩
        · exact absurd hs (splitDotAux_ne_nil _ _)
        · have hrest : rest = [] := by
            rw [hs] at he1
            simpa using he1
          subst hrest
          have hve : versionOf expected = [Tok.s t, Tok.z] := by
            simp [versionOf, pad, hs]
          rw [hve] at h1
          obtain ⟨a, b, gr, hgl⟩ := exists_cons2 (two_le_length_versionOf given)
          rw [hgl] at h1
          simp only [List.getD_cons_succ, List.getD_cons_zero] at h1
          have : (versionOf given).get? 1 = some Tok.z := by
            rw [hgl, h1]
            rfl
          exact versionOf_get?_one_eq_z this
    rcases hs : splitDot given with _ | ⟨t, rest⟩
    · exact absurd hs (splitDotAux_ne_nil _ _)
    have hrest : rest = [] := by
      rw [hs] at hg1
      simpa using hg1
    subst hrest
    have hvg : versionOf given = [Tok.s t, Tok.z] := by
      simp [versionOf, pad, hs]
    obtain ⟨d, e, er, hel⟩ := exists_cons2 (two_le_length_versionOf expected)
    rw [hvg, hel] at h0 h1
    simp only [List.getD_cons_zero, List.getD_cons_succ] at h0 h1
    simp [run, hvg, hel, h0, h1]

/-- Witness for `run_index_safety`: part (a) at `"4.4.2"`/`"4.4.2"`, part (b)
at the dotless pair `"4"`/`"4"`. -/
theorem run_index_safety_witness :
    (run ["versionCheck.py", "4.4.2", "4.4.2"]).isSome ∧
      run ["versionCheck.py", "4", "4"] = none :=
  ⟨(run_index_safety "versionCheck.py" "4.4.2" "4.4.2").1 (by decide) (by decide),
   (run_index_safety "versionCheck.py" "4" "4").2 (Or.inl (by decide)) (by decide) (by decide)⟩

/-- Claim C10, counterexample: the claim as stated quantifies over every pair
where one string has 2 tokens and the other has third token `"0"`, but at
`expected="5.5.0"`, `given="4.4"` the majors differ, so the program prints
the blocking update-required message and exits with code 1, not the advisory
with code 0. -/
theorem recommend_padding_counterexample :
    ((splitDot "5.5.0").length = 3 ∧ splitDot "4.4" = ["4", "4"]) ∧
      run ["versionCheck.py", "5.5.0", "4.4"] =
        some ⟨["*** Update required to ESP-IDF " ++ "5.5.0", update], 1⟩ := by decide

/-- Claim C10 (amended): the padding element is the integer `0`, not the
string `"0"`, so for every pair where one version string has exactly 2 tokens,
the other has the explicit third token `"0"`, and the two agree on their
first two tokens, the patch components compare unequal and the program prints
the advisory recommendation and exits with code 0, rather than treating the
versions as identical. -/
theorem recommend_on_integer_padding (p expected given a b : String)
    (h : (splitDot expected = [a, b, "0"] ∧ splitDot given = [a, b]) ∨
         (splitDot expected = [a, b] ∧ splitDot given = [a, b, "0"])) :
    run [p, expected, given] =
      some ⟨["Recommend using ESP-IDF " ++ expected ++ " (found " ++ given ++ ")", update],
            0⟩ := by
  rcases h with ⟨he, hg⟩ | ⟨he, hg⟩ <;>
    simp [run, versionOf, pad, he, hg]

/-- Witness for `recommend_on_integer_padding` at `expected="4.4.0"`,
`given="4.4"`. -/
theorem recommend_on_integer_padding_witness :
    run ["versionCheck.py", "4.4.0", "4.4"] =
      some ⟨["Recommend using ESP-IDF " ++ "4.4.0" ++ " (found " ++ "4.4" ++ ")", update],
            0⟩ :=
  recommend_on_integer_padding "versionCheck.py" "4.4.0" "4.4" "4" "4"
    (Or.inl ⟨by decide, by decide⟩)
